import Mathlib

/-!
Shallow embedding of the core of `monitor.go` from AWildBeard/isp-monitor.

The repository file concatenates two icmp-based variants of the program:
the current one (top of the file: `sendPing` / `receivePing` with a global
`seq` counter) and an older one (bottom: an inline `pingLoop` / `readLoop`
with `icmpBody.Seq`).  Both are embedded here.  Go `int` / `int64` values
are modelled as `Int` (no overflow is reachable for the quantities
involved: `seq` stays within `[0, 65536]` and round-trip durations are
nanosecond counts far below `2^63`).  Go's `int64` division truncates
toward zero, which is `Int.tdiv`.  `float64` values that the flush
publishes are modelled as `Option ℚ`: `none` stands for a non-finite
result (NaN / Inf), `some q` for a finite value.
-/

namespace IspMonitor

/-- A received datagram, as `receivePing` / the older `readLoop` see it after
`con.ReadFrom`: whether `icmp.ParseMessage(1, buf)` returned a nil error,
whether the parsed message type is `ipv4.ICMPTypeEchoReply`, the source
address string `addr.String()`, and bytes 6 and 7 of the receive buffer
(from which the code recovers the sequence number by hand). -/
structure Datagram where
  parseOk : Bool
  isEchoReply : Bool
  srcAddr : String
  buf6 : Nat
  buf7 : Nat
deriving DecidableEq, Repr

/-- `rxSeqNum := (int(rcvBuf[6]) << 8) | int(rcvBuf[7])` — the byte-offset
recovery of the reply's sequence number. -/
def rxSeqNum (b6 b7 : Nat) : Nat := (b6 <<< 8) ||| b7

/-- The reply sequence number of a datagram, as an `Int` (Go `int`). -/
def rxSeqOf (d : Datagram) : Int := (rxSeqNum d.buf6 d.buf7 : Int)

/-- The acceptance condition of `receivePing` (current variant):
`receivedMessageError == nil && receivedMessage.Type == ipv4.ICMPTypeEchoReply
&& addr.String() == target.String() && seq-1 == rxSeqNum`, where `seq` is the
global counter at the time of the read (already incremented by `sendPing`). -/
def receiveMatch (seqCtr : Int) (target : String) (d : Datagram) : Bool :=
  d.parseOk && d.isEchoReply && (d.srcAddr == target) && (seqCtr - 1 == rxSeqOf d)

/-- The acceptance condition of the older variant's `readLoop`:
identical except the comparison is `icmpBody.Seq == rxSeqNum` against the
sequence number stored (and sent) for the current cycle, unadjusted. -/
def readMatch (curSeq : Int) (target : String) (d : Datagram) : Bool :=
  d.parseOk && d.isEchoReply && (d.srcAddr == target) && (curSeq == rxSeqOf d)

/-- Fallible environment of one `sendPing` call: whether the supplied context
carries a deadline, and whether `msg.Marshal`, `con.SetWriteDeadline` and
`con.WriteTo` succeed. -/
structure SendEnv where
  hasDeadline : Bool
  marshalOk : Bool
  setWriteDeadlineOk : Bool
  writeOk : Bool
deriving DecidableEq, Repr

/-- How a `sendPing` call ends: a normal return (with nil or non-nil error),
or the `os.Exit(1)` taken when marshaling fails (on which deferred functions
do not run). -/
inductive SendRes where
  | retOk
  | retNoDeadline
  | retSetDeadlineErr
  | retWriteErr
  | exitMarshal
deriving DecidableEq, Repr

/-- Program state touched by `sendPing`: the global `seq` counter and the
list of sequence numbers actually written to the socket. -/
structure SendState where
  seq : Int
  sent : List Int
deriving DecidableEq, Repr

/-- The sequence number placed in the message body of a `sendPing` call made
from state `st`: the code first resets `seq` to 0 when it equals 65536, then
builds `icmp.Echo{Seq: seq}`. -/
def sendPingMsgSeq (st : SendState) : Int :=
  if st.seq = 65536 then 0 else st.seq

/-- `sendPing` (current variant).  Order of operations in the source:
deadline check (early return `os.ErrNoDeadline`), wrap check on `seq`,
`defer func() {seq++}()`, marshal (fatal `os.Exit(1)` on failure, skipping
the defer), `SetWriteDeadline` (error return), `WriteTo` (error return),
nil return.  The deferred increment runs on every return path after the
deadline check. -/
def sendPing (env : SendEnv) (st : SendState) : SendRes × SendState :=
  if !env.hasDeadline then
    (.retNoDeadline, st)
  else
    let s1 : Int := sendPingMsgSeq st
    if !env.marshalOk then
      (.exitMarshal, { st with seq := s1 })
    else if !env.setWriteDeadlineOk then
      (.retSetDeadlineErr, { st with seq := s1 + 1 })
    else if !env.writeOk then
      (.retWriteErr, { st with seq := s1 + 1 })
    else
      (.retOk, { seq := s1 + 1, sent := st.sent ++ [s1] })

/-- The all-successful send environment. -/
def okSendEnv : SendEnv :=
  { hasDeadline := true, marshalOk := true, setWriteDeadlineOk := true, writeOk := true }

/-- Program state after `n` successful `sendPing` calls, starting from the
initial `var seq = 0` and an empty wire history. -/
def sendStateAfter : Nat → SendState
  | 0 => { seq := 0, sent := [] }
  | n + 1 => (sendPing okSendEnv (sendStateAfter n)).2

/-- The sequence number transmitted by the `(n+1)`-th request (0-indexed
call `n`). -/
def txSeqOf (n : Nat) : Int := sendPingMsgSeq (sendStateAfter n)

/-- Fallible environment of one `receivePing` call. -/
structure RecvEnv where
  hasDeadline : Bool
  setReadDeadlineOk : Bool
deriving DecidableEq, Repr

/-- Non-nil errors `receivePing` can return in the model. -/
inductive RecvErr where
  | noDeadline
  | setDeadlineErr
  | readTimeout
deriving DecidableEq, Repr

/-- `receivePing` (current variant).  Order of operations in the source:
deadline check (early return `(false, os.ErrNoDeadline)`),
`SetReadDeadline` (error return), a single `con.ReadFrom` (on timeout the
function returns `(false, err)`), and on a successful read the acceptance
test `receiveMatch` decides the boolean result.  The socket is modelled as
the queue of datagrams readable before the deadline; `ReadFrom` consumes
its head.  The result is `((received, error), remaining socket queue)`. -/
def receivePing (env : RecvEnv) (seqCtr : Int) (target : String)
    (sock : List Datagram) : (Bool × Option RecvErr) × List Datagram :=
  if !env.hasDeadline then
    ((false, some .noDeadline), sock)
  else if !env.setReadDeadlineOk then
    ((false, some .setDeadlineErr), sock)
  else
    match sock with
    | [] => ((false, some .readTimeout), sock)
    | d :: rest => ((receiveMatch seqCtr target d, none), rest)

/-- The all-successful receive environment. -/
def okRecvEnv : RecvEnv := { hasDeadline := true, setReadDeadlineOk := true }

/-- The older variant's `readLoop`: repeatedly read with a fresh short
deadline and test `readMatch`; a match breaks the loop (Delivered), a
non-match falls through to the ticker check and continues reading; when
the attempt budget is exhausted (here: the queue of datagrams arriving
before the ticker fires runs out) the cycle emits a dropped update. -/
def readLoopOutcome (curSeq : Int) (target : String) : List Datagram → Bool
  | [] => false
  | d :: rest =>
    if readMatch curSeq target d then true else readLoopOutcome curSeq target rest

/-- One `packetUpdate` as the aggregator consumes it (current variant):
whether the cycle's reply was received, and the round-trip duration
`rttStop.Sub(rttStart)` in nanoseconds (Go `time.Duration`, an `int64`). -/
structure PacketUpdate where
  received : Bool
  rtt : Int
deriving DecidableEq, Repr

/-- The aggregator goroutine's accumulator state (current variant):
`droppedPacketsCounter`, `totalPacketsCounter`, `rttMin`, `rttAvg`,
`rttAvgCnt`, `rttMax`. -/
structure AggState where
  droppedPacketsCounter : Int
  totalPacketsCounter : Int
  rttMin : Int
  rttAvg : Int
  rttAvgCnt : Int
  rttMax : Int
deriving DecidableEq, Repr

/-- `time.Duration((1 << 63) - 1)`, the sentinel the aggregator starts
`rttMin` at (written as the decimal literal so that kernel evaluation stays
shallow; `maxInt64Dur_eq` below checks it against `2^63 - 1`). -/
def maxInt64Dur : Int := 9223372036854775807

/-- The state the aggregator starts with:
`0, 0, time.Duration((1 << 63) - 1), 0, 1, 0`. -/
def initAggState : AggState :=
  { droppedPacketsCounter := 0
    totalPacketsCounter := 0
    rttMin := maxInt64Dur
    rttAvg := 0
    rttAvgCnt := 1
    rttMax := 0 }

/-- The `case update := <-updateChan` branch of the aggregator: increment
`totalPacketsCounter`; when the update was received, fold the rtt into
min, max and the incremental mean (`rttAvg == 0` marks the first sample;
afterwards `rttAvg = ((rttAvg * rttAvgCnt) + rttInt) / (rttAvgCnt + 1)`
with `int64` truncating division, then `rttAvgCnt++`); otherwise increment
`droppedPacketsCounter`. -/
def aggEvent (s : AggState) (u : PacketUpdate) : AggState :=
  let s := { s with totalPacketsCounter := s.totalPacketsCounter + 1 }
  if u.received then
    let s := if u.rtt < s.rttMin then { s with rttMin := u.rtt } else s
    let s := if u.rtt > s.rttMax then { s with rttMax := u.rtt } else s
    if s.rttAvg = 0 then
      { s with rttAvg := u.rtt }
    else
      { s with rttAvg := Int.tdiv (s.rttAvg * s.rttAvgCnt + u.rtt) (s.rttAvgCnt + 1)
               rttAvgCnt := s.rttAvgCnt + 1 }
  else
    { s with droppedPacketsCounter := s.droppedPacketsCounter + 1 }

/-- The aggregator consuming a list of updates in order. -/
def aggRun (s : AggState) (es : List PacketUpdate) : AggState :=
  es.foldl aggEvent s

/-- The `// Reset counters` block at the end of the ticker branch:
`droppedPacketsCounter = 0; totalPacketsCounter = 0;
rttMin = time.Duration((1 << 63) - 1); rttAvg = 0; rttAvgCnt = 1;
rttMax = time.Duration(0)`. -/
def resetCounters (_s : AggState) : AggState :=
  { droppedPacketsCounter := 0
    totalPacketsCounter := 0
    rttMin := maxInt64Dur
    rttAvg := 0
    rttAvgCnt := 1
    rttMax := 0 }

/-- Go `float64` division, finitely: `none` models the non-finite results
(NaN for `0/0`, ±Inf for `x/0` with `x ≠ 0`), `some (a / b)` the finite
quotient.  Both operands come from exact integer counters, so the finite
case is exact. -/
def goFloatDiv (a b : ℚ) : Option ℚ :=
  if b = 0 then none else some (a / b)

/-- The loss value the ticker branch publishes:
`float64(droppedPacketsCounter) / float64(totalPacketsCounter)`, computed and
passed to `packetLossPercentage.Set` unconditionally at every flush. -/
def publishedLoss (s : AggState) : Option ℚ :=
  goFloatDiv (s.droppedPacketsCounter : ℚ) (s.totalPacketsCounter : ℚ)

/-- The ticker branch's pre-publication rewrite of `rttMin`:
`if rttMin == time.Duration((1 << 63) - 1) { rttMin = 0 }`. -/
def flushedRttMin (s : AggState) : Int :=
  if s.rttMin = maxInt64Dur then 0 else s.rttMin

/-- The millisecond float the flush derives from a duration `d` (ns):
`float64(d/time.Microsecond)/1000 + float64(d/time.Millisecond)/1000`,
with `time.Duration` integer division inside each cast. -/
def durMsecFl (d : Int) : ℚ :=
  ((Int.tdiv d 1000 : Int) : ℚ) / 1000 + ((Int.tdiv d 1000000 : Int) : ℚ) / 1000

/-- The `rtt_min_msec` value a flush publishes. -/
def publishedRttMinMsec (s : AggState) : ℚ :=
  durMsecFl (flushedRttMin s)

/-- One iteration of the current variant's main loop, seen from the event
stream: the cycle's readable datagrams and its measured `rttStop - rttStart`. -/
structure CycleInput where
  arrivals : List Datagram
  rtt : Int
deriving DecidableEq, Repr

/-- The `packetUpdate` one main-loop iteration emits: `received` is the
boolean `receivePing` returned (called with the post-send global `seq`),
and the update is sent on `updateChan` unconditionally, exactly once. -/
def cycleUpdate (target : String) (seqCtr : Int) (c : CycleInput) : PacketUpdate :=
  { received := (receivePing okRecvEnv seqCtr target c.arrivals).1.1
    rtt := c.rtt }

/-- The current variant's main loop over a list of cycles: each iteration
runs `sendPing`, then `receivePing` against the global counter, then emits
exactly one update.  Returns the final send state and the emitted stream. -/
def runCycles (target : String) (st : SendState) :
    List CycleInput → SendState × List PacketUpdate
  | [] => (st, [])
  | c :: rest =>
    let st' := (sendPing okSendEnv st).2
    ((runCycles target st' rest).1,
      cycleUpdate target st'.seq c :: (runCycles target st' rest).2)

/-- Number of received (Delivered) outcomes in an event stream. -/
def receivedCount (es : List PacketUpdate) : Int :=
  ((es.filter (fun u => u.received)).length : Int)

/-- The stale reply used in the C3 evaluation: a well-formed echo reply from
the target carrying sequence number 4. -/
def staleReply : Datagram :=
  { parseOk := true, isEchoReply := true, srcAddr := "1.0.0.1", buf6 := 0, buf7 := 4 }

/-- The correct reply used in the C3 evaluation: a well-formed echo reply
from the target carrying sequence number 5. -/
def correctReply : Datagram :=
  { parseOk := true, isEchoReply := true, srcAddr := "1.0.0.1", buf6 := 0, buf7 := 5 }

/-- The decimal literal in `maxInt64Dur` is `(1 << 63) - 1`. -/
theorem maxInt64Dur_eq : maxInt64Dur = 2 ^ 63 - 1 := by
  norm_num [maxInt64Dur]

/-- On every `sendPing` call that passes the deadline check and does not hit
the marshal `os.Exit`, the returned state's `seq` is the message's sequence
number plus one (the deferred increment ran exactly once). -/
theorem sendPing_seq (env : SendEnv) (st : SendState)
    (h1 : env.hasDeadline = true) (h2 : env.marshalOk = true) :
    (sendPing env st).2.seq = sendPingMsgSeq st + 1 := by
  cases h3 : env.setWriteDeadlineOk <;> cases h4 : env.writeOk <;>
    simp [sendPing, h1, h2, h3, h4]

/-- A fully successful `sendPing` call, in closed form. -/
theorem sendPing_ok_eq (st : SendState) :
    sendPing okSendEnv st =
      (.retOk, { seq := sendPingMsgSeq st + 1, sent := st.sent ++ [sendPingMsgSeq st] }) := by
  rfl

/-- Claim C10: every `sendPing` call that passes the deadline check (and
actually returns, i.e. does not die in the marshal `os.Exit(1)`) increments
the global `seq` exactly once via the deferred function — on the
set-write-deadline failure path, the write failure path, and the success
path alike — so after the call `seq` equals the sequence number placed in
the transmitted message plus one, which is exactly the invariant
`receivePing`'s `seq-1 == rxSeqNum` comparison depends on. -/
theorem c10_seq_increment_invariant (env : SendEnv) (st : SendState)
    (h1 : env.hasDeadline = true) (h2 : env.marshalOk = true) :
    (sendPing env st).2.seq = sendPingMsgSeq st + 1 ∧
    (sendPing env st).2.seq - 1 = sendPingMsgSeq st := by
  have h := sendPing_seq env st h1 h2
  exact ⟨h, by omega⟩

/-- Witness for C10 at a concrete input: a call whose write fails still
returns with `seq = 6` after transmitting sequence number 5. -/
theorem c10_seq_increment_invariant_witness :
    (SendEnv.mk true true true false).hasDeadline = true ∧
    (SendEnv.mk true true true false).marshalOk = true ∧
    ((sendPing (SendEnv.mk true true true false) (SendState.mk 5 [])).2.seq =
        sendPingMsgSeq (SendState.mk 5 []) + 1 ∧
      (sendPing (SendEnv.mk true true true false) (SendState.mk 5 [])).2.seq - 1 =
        sendPingMsgSeq (SendState.mk 5 [])) :=
  ⟨rfl, rfl, c10_seq_increment_invariant (SendEnv.mk true true true false)
    (SendState.mk 5 []) rfl rfl⟩

/-- Claim C1: the correlator accepts a datagram read after the current
attempt's send — when the global counter sits at the value `sendPing` left
it — if and only if parsing succeeded, the type is echo-reply, the source
address equals the target address, and the reply's sequence number equals
the sequence number placed in the message of the current attempt, exactly.
The `seq-1` the code compares against coincides with the transmitted value,
so no off-by-one separates the compared value from the value sent. -/
theorem c1_correlator_match (env : SendEnv) (st : SendState) (t : String)
    (d : Datagram) (h1 : env.hasDeadline = true) (h2 : env.marshalOk = true) :
    receiveMatch (sendPing env st).2.seq t d = true ↔
      (d.parseOk = true ∧ d.isEchoReply = true ∧ d.srcAddr = t ∧
        rxSeqOf d = sendPingMsgSeq st) := by
  rw [sendPing_seq env st h1 h2]
  unfold receiveMatch
  simp only [Bool.and_eq_true, beq_iff_eq]
  constructor
  · rintro ⟨⟨⟨ha, hb⟩, hc⟩, he⟩
    exact ⟨ha, hb, hc, by omega⟩
  · rintro ⟨ha, hb, hc, he⟩
    exact ⟨⟨⟨ha, hb⟩, hc⟩, by omega⟩

/-- Witness for C1 at a concrete input: after transmitting sequence number 5
(counter now 6), the correct reply from the target matches. -/
theorem c1_correlator_match_witness :
    okSendEnv.hasDeadline = true ∧ okSendEnv.marshalOk = true ∧
    (receiveMatch (sendPing okSendEnv (SendState.mk 5 [])).2.seq "1.0.0.1"
        correctReply = true ↔
      (correctReply.parseOk = true ∧ correctReply.isEchoReply = true ∧
        correctReply.srcAddr = "1.0.0.1" ∧
        rxSeqOf correctReply = sendPingMsgSeq (SendState.mk 5 []))) :=
  ⟨rfl, rfl, c1_correlator_match okSendEnv (SendState.mk 5 []) "1.0.0.1"
    correctReply rfl rfl⟩

/-- Claim C9: when the supplied context has no deadline, `sendPing` returns
`os.ErrNoDeadline` leaving `seq` and the wire untouched (the early return
precedes the wrap check and the deferred increment), and `receivePing`
returns `(false, os.ErrNoDeadline)` without reading from the socket. -/
theorem c9_no_deadline_noop (envS : SendEnv) (envR : RecvEnv) (st : SendState)
    (seqCtr : Int) (t : String) (sock : List Datagram)
    (hS : envS.hasDeadline = false) (hR : envR.hasDeadline = false) :
    sendPing envS st = (.retNoDeadline, st) ∧
    receivePing envR seqCtr t sock = ((false, some .noDeadline), sock) := by
  constructor
  · simp [sendPing, hS]
  · simp [receivePing, hR]

/-- Witness for C9 at a concrete input: no-deadline environments leave the
concrete state `seq = 3`, a one-datagram socket queue, untouched. -/
theorem c9_no_deadline_noop_witness :
    (SendEnv.mk false true true true).hasDeadline = false ∧
    (RecvEnv.mk false true).hasDeadline = false ∧
    (sendPing (SendEnv.mk false true true true) (SendState.mk 3 []) =
        (.retNoDeadline, SendState.mk 3 []) ∧
      receivePing (RecvEnv.mk false true) 4 "1.0.0.1" [correctReply] =
        ((false, some .noDeadline), [correctReply])) :=
  ⟨rfl, rfl, c9_no_deadline_noop (SendEnv.mk false true true true)
    (RecvEnv.mk false true) (SendState.mk 3 []) 4 "1.0.0.1" [correctReply] rfl rfl⟩

/-- After the `(n+1)`-th successful send, `seq` is one above the value just
transmitted. -/
theorem sendStateAfter_seq (n : Nat) :
    (sendStateAfter (n + 1)).seq = txSeqOf n + 1 := by
  show (sendPing okSendEnv (sendStateAfter n)).2.seq = _
  rw [sendPing_ok_eq]
  rfl

/-- The sequence number of the 0-indexed call `n` is `n % 65536`. -/
theorem txSeqOf_eq (n : Nat) : txSeqOf n = (n : Int) % 65536 := by
  induction n with
  | zero => rfl
  | succ n ih =>
    have hcast : ((n + 1 : Nat) : Int) = (n : Int) + 1 := by push_cast; ring
    unfold txSeqOf sendPingMsgSeq
    rw [sendStateAfter_seq n, ih, hcast]
    by_cases h : ((n : Int) % 65536 + 1) = 65536
    · rw [if_pos h]
      omega
    · rw [if_neg h]
      omega

/-- Claim C7: successive echo requests carry sequence numbers that are
strictly increasing modulo `2^16`, wrapping 65535 to 0: the 0-indexed call
`n` transmits `n % 65536`, every transmitted number lies in `[0, 65535]`,
each call's number is the previous one's successor modulo 65536, the
65537-th request (index 65536) reuses 0, and the transmitted number is
appended to the wire history of each call. -/
theorem c7_seq_wraparound (n : Nat) :
    txSeqOf n = (n : Int) % 65536 ∧
    (0 ≤ txSeqOf n ∧ txSeqOf n < 65536) ∧
    txSeqOf (n + 1) = (txSeqOf n + 1) % 65536 ∧
    txSeqOf 65536 = 0 ∧
    (sendStateAfter (n + 1)).sent = (sendStateAfter n).sent ++ [txSeqOf n] := by
  have h := txSeqOf_eq n
  have h2 := txSeqOf_eq (n + 1)
  have h3 := txSeqOf_eq 65536
  refine ⟨h, ⟨by omega, by omega⟩, by omega, by omega, ?_⟩
  show (sendPing okSendEnv (sendStateAfter n)).2.sent = _
  rw [sendPing_ok_eq]
  rfl

/-- Claim C8: the `// Reset counters` block restores exactly the
aggregator's start state, so the statistics the window after a flush
accumulates are a function only of the events consumed after that flush;
events consumed before the flush (`pre`) contribute nothing to the next
window's min, max, mean, or counts. -/
theorem c8_flush_reset_frame (s0 : AggState) (pre post : List PacketUpdate) :
    resetCounters (aggRun s0 pre) = initAggState ∧
    aggRun (resetCounters (aggRun s0 pre)) post = aggRun initAggState post :=
  ⟨rfl, rfl⟩

/-- Claim C6: feeding the empty window three Delivered events of 10 ms,
20 ms and 30 ms (nanosecond durations) leaves the accumulator the flush
reads holding mean exactly 20 ms, minimum exactly 10 ms and maximum exactly
30 ms. -/
theorem c6_incremental_mean_exact :
    (aggRun initAggState
        [{ received := true, rtt := 10000000 },
         { received := true, rtt := 20000000 },
         { received := true, rtt := 30000000 }]).rttAvg = 20000000 ∧
    (aggRun initAggState
        [{ received := true, rtt := 10000000 },
         { received := true, rtt := 20000000 },
         { received := true, rtt := 30000000 }]).rttMin = 10000000 ∧
    (aggRun initAggState
        [{ received := true, rtt := 10000000 },
         { received := true, rtt := 20000000 },
         { received := true, rtt := 30000000 }]).rttMax = 30000000 :=
  ⟨rfl, rfl, rfl⟩

/-- Claim C3 fails on the current variant: with sequence number 5 just
transmitted (global counter 6) and a stale reply (sequence 4) queued ahead
of the correct reply (sequence 5), both readable within the attempt
deadline, the single-read `receivePing` consumes the stale datagram,
returns `received = false`, and the cycle emits Dropped — even though the
correct reply was next in the queue and would have matched
(`receiveMatch 6 correctReply = true`).  The older variant's `readLoop`
keeps reading on a non-match and yields Delivered on the same queue. -/
theorem c3_stale_reply_terminates_attempt :
    (receivePing okRecvEnv 6 "1.0.0.1" [staleReply, correctReply]).1.1 = false ∧
    receiveMatch 6 "1.0.0.1" correctReply = true ∧
    readLoopOutcome 5 "1.0.0.1" [staleReply, correctReply] = true :=
  ⟨rfl, rfl, rfl⟩

/-- Claim C4 fails on the code: a flush of a window with
`totalPacketsCounter = 0` (no events consumed) unconditionally computes
`float64(droppedPacketsCounter) / float64(totalPacketsCounter)` — the
IEEE-754 `0/0`, i.e. NaN, modelled as `none` — and passes it to
`packetLossPercentage.Set`; no guard replaces it with 0 or omits it. -/
theorem c4_empty_window_loss_undefined :
    (aggRun initAggState []).totalPacketsCounter = 0 ∧
    publishedLoss (aggRun initAggState []) = none :=
  ⟨rfl, rfl⟩

/-- Claim C5 fails on the code: at a flush of a window in which no packet
was received, `rttMin` still holds the start sentinel, the flush branch
rewrites it to 0, and the published `rtt_min_msec` value is exactly 0 —
the code does report a 0 ms minimum for an empty window. -/
theorem c5_empty_window_min_published_zero :
    (aggRun initAggState []).rttMin = maxInt64Dur ∧
    flushedRttMin (aggRun initAggState []) = 0 ∧
    publishedRttMinMsec (aggRun initAggState []) = 0 := by
  refine ⟨rfl, rfl, ?_⟩
  norm_num [publishedRttMinMsec, durMsecFl, flushedRttMin, initAggState, aggRun]

/-- Every consumed event raises `totalPacketsCounter` by exactly one. -/
theorem aggEvent_total (s : AggState) (u : PacketUpdate) :
    (aggEvent s u).totalPacketsCounter = s.totalPacketsCounter + 1 := by
  simp only [aggEvent]
  split_ifs <;> rfl

/-- Every consumed event raises `droppedPacketsCounter` by exactly one when
it was not received, and leaves it unchanged otherwise. -/
theorem aggEvent_dropped (s : AggState) (u : PacketUpdate) :
    (aggEvent s u).droppedPacketsCounter =
      s.droppedPacketsCounter + (if u.received then 0 else 1) := by
  simp only [aggEvent]
  split_ifs <;> simp

/-- Consuming a stream of events raises the total by the stream's length. -/
theorem aggRun_total (s : AggState) (es : List PacketUpdate) :
    (aggRun s es).totalPacketsCounter =
      s.totalPacketsCounter + (es.length : Int) := by
  induction es generalizing s with
  | nil => simp [aggRun]
  | cons e es ih =>
    have h1 : aggRun s (e :: es) = aggRun (aggEvent s e) es := rfl
    rw [h1, ih, aggEvent_total]
    simp only [List.length_cons]
    push_cast
    ring

/-- Consuming a stream of events raises the dropped counter by the number
of not-received events in the stream. -/
theorem aggRun_dropped (s : AggState) (es : List PacketUpdate) :
    (aggRun s es).droppedPacketsCounter =
      s.droppedPacketsCounter +
        ((es.filter (fun u => !u.received)).length : Int) := by
  induction es generalizing s with
  | nil => simp [aggRun]
  | cons e es ih =>
    have h1 : aggRun s (e :: es) = aggRun (aggEvent s e) es := rfl
    rw [h1, ih, aggEvent_dropped]
    cases h : e.received <;>
      simp only [List.filter_cons, h, Bool.not_true, Bool.not_false, if_pos,
        if_neg, Bool.false_eq_true, ite_false, ite_true, List.length_cons] <;>
      push_cast <;> omega

/-- Splitting a stream by `received` loses nothing. -/
theorem receivedCount_split (es : List PacketUpdate) :
    receivedCount es + ((es.filter (fun u => !u.received)).length : Int) =
      (es.length : Int) := by
  unfold receivedCount
  induction es with
  | nil => simp
  | cons e es ih =>
    cases h : e.received <;>
      simp only [List.filter_cons, h, Bool.not_true, Bool.not_false, Bool.false_eq_true,
        Bool.true_eq_false, ite_false, ite_true, List.length_cons] <;>
      push_cast <;> omega

/-- Each main-loop cycle emits exactly one update. -/
theorem runCycles_length (t : String) (st : SendState) (cs : List CycleInput) :
    (runCycles t st cs).2.length = cs.length := by
  induction cs generalizing st with
  | nil => rfl
  | cons c cs ih =>
    show ((cycleUpdate t _ c) :: (runCycles t _ cs).2).length = cs.length + 1
    rw [List.length_cons, ih]

/-- Claim C2: over any `N` completed send cycles with any deterministic
pattern of readable replies, the stream carries exactly one outcome event
per cycle, the aggregator's `totalPacketsCounter` (sent) equals `N`, and
the number of received outcomes plus the dropped counter equals `N`: no
cycle produces zero or two events and the aggregator counts each exactly
once. -/
theorem c2_event_accounting (t : String) (st : SendState) (cs : List CycleInput) :
    (runCycles t st cs).2.length = cs.length ∧
    (aggRun initAggState (runCycles t st cs).2).totalPacketsCounter =
      (cs.length : Int) ∧
    receivedCount (runCycles t st cs).2 +
      (aggRun initAggState (runCycles t st cs).2).droppedPacketsCounter =
      (cs.length : Int) := by
  have hlen := runCycles_length t st cs
  refine ⟨hlen, ?_, ?_⟩
  · rw [aggRun_total, hlen]
    simp [initAggState]
  · rw [aggRun_dropped]
    have hsplit := receivedCount_split (runCycles t st cs).2
    rw [hlen] at hsplit
    simp only [initAggState] at *
    omega

end IspMonitor
